import Mathlib

/-!
Verification of the implicit-topology streamline computation engine
(`streamlines.cu` part of `glyph_renderer_2d.cpp`): a shallow embedding of
the CUDA streamline kernel, its two integrators (fixed RK4 and adaptive
Cash-Karp RK4-5), the per-particle label/distance update, the batch
dispatcher and the device-operation error handling, together with proofs
about termination classification, monotonicity, batching and error
propagation.

Scalars are modelled as exact rationals.  Device intrinsics that live
outside the translated unit (texture fetches `texture_interpolation`, the
vector norm `length` and the point-to-segment distance
`distance_point_line` from `functions.cuh`, and `powf` from libm) are
supplied as function-valued fields of the environment.
-/

/-- CUDA `float2`, the 2-vector used throughout the kernel. -/
structure Vec2 where
  x : ℚ
  y : ℚ
deriving DecidableEq, Repr

instance : Add Vec2 := ⟨fun a b => ⟨a.x + b.x, a.y + b.y⟩⟩

instance : Sub Vec2 := ⟨fun a b => ⟨a.x - b.x, a.y - b.y⟩⟩

/-- Componentwise product, CUDA helper-math `float2 * float2`. -/
instance : Mul Vec2 := ⟨fun a b => ⟨a.x * b.x, a.y * b.y⟩⟩

/-- Scalar multiplication, CUDA helper-math `float * float2`. -/
instance : SMul ℚ Vec2 := ⟨fun c v => ⟨c * v.x, c * v.y⟩⟩

/-- CUDA `fabs` on `float2`, componentwise absolute value. -/
def vabs (v : Vec2) : Vec2 := ⟨|v.x|, |v.y|⟩

/--
Environment of the device kernel: the device-resident textures and
constants uploaded by `streamlines_cuda_impl`'s constructor, the external
device intrinsics, and the integration method.

* `field` is `texture_interpolation<2>(textures[0], ·)` (vector field, at
  texture coordinates);
* `stepSizeTex` is `texture_interpolation<1>(textures[1], ·)` (the
  Runge-Kutta step-size texture);
* `len` is the CUDA helper `length`;
* `distPL` is `distance_point_line` from `functions.cuh`;
* `pw` is `powf`;
* `domainOffset`, `domainScale`, `textureOffset`, `textureScale`,
  `timeScale`, `maxError`, `cellSize` are `const_data[0]`..`const_data[6]`
  as built in the constructor;
* `points` / `lines` are the convergence structures with their integer
  labels (textures 2/3 and 4/5);
* `method` is the integration method (0 = RK4, 1 = RK4-5).
-/
structure KernelEnv where
  field : Vec2 → Vec2
  stepSizeTex : Vec2 → ℚ
  len : Vec2 → ℚ
  distPL : Vec2 → Vec2 → Vec2 → ℚ
  pw : ℚ → ℚ → ℚ
  domainOffset : Vec2
  domainScale : Vec2
  textureOffset : Vec2
  textureScale : Vec2
  cellSize : Vec2
  timeScale : ℚ
  maxError : ℚ
  points : List (Vec2 × ℤ)
  lines : List (Vec2 × Vec2 × ℤ)
  method : ℤ

/-- Source `pos_to_texcoords`: world position to texture coordinates. -/
def pos_to_texcoords (env : KernelEnv) (pos : Vec2) : Vec2 :=
  ((pos - env.domainOffset) * env.domainScale) * env.textureScale - env.textureOffset

/-- The local step-size factor `steps_per_cell` computed at the top of
`advectRK4`: minimum cell extent divided by the local velocity magnitude,
or `0` when the local velocity magnitude is not positive. -/
def stepsPerCell (env : KernelEnv) (pos : Vec2) : ℚ :=
  let max_velocity := env.len (env.field (pos_to_texcoords env pos))
  let min_cellsize := min env.cellSize.x env.cellSize.y
  if max_velocity > 0 then min_cellsize / max_velocity else 0

/-- Runge-Kutta coefficient `k1` of `advectRK4`. -/
def rk4k1 (env : KernelEnv) (pos : Vec2) (delta sign : ℚ) : Vec2 :=
  (stepsPerCell env pos * delta * sign) • env.field (pos_to_texcoords env pos)

/-- Runge-Kutta coefficient `k2` of `advectRK4`. -/
def rk4k2 (env : KernelEnv) (pos : Vec2) (delta sign : ℚ) : Vec2 :=
  (stepsPerCell env pos * delta * sign) •
    env.field (pos_to_texcoords env (pos + ((1 : ℚ)/2) • rk4k1 env pos delta sign))

/-- Runge-Kutta coefficient `k3` of `advectRK4`. -/
def rk4k3 (env : KernelEnv) (pos : Vec2) (delta sign : ℚ) : Vec2 :=
  (stepsPerCell env pos * delta * sign) •
    env.field (pos_to_texcoords env (pos + ((1 : ℚ)/2) • rk4k2 env pos delta sign))

/-- Runge-Kutta coefficient `k4` of `advectRK4`. -/
def rk4k4 (env : KernelEnv) (pos : Vec2) (delta sign : ℚ) : Vec2 :=
  (stepsPerCell env pos * delta * sign) •
    env.field (pos_to_texcoords env (pos + rk4k3 env pos delta sign))

/-- Source `advectRK4`: one fixed 4th-order Runge-Kutta step. -/
def advectRK4 (env : KernelEnv) (pos : Vec2) (delta sign : ℚ) : Vec2 :=
  pos + ((1 : ℚ)/6) •
    (rk4k1 env pos delta sign + (2 : ℚ) • rk4k2 env pos delta sign +
      (2 : ℚ) • rk4k3 env pos delta sign + rk4k4 env pos delta sign)

/-! Cash-Karp parameters of `advectRK45`, as exact rationals. -/

def b_21 : ℚ := 1/5

def b_31 : ℚ := 3/40

def b_41 : ℚ := 3/10

def b_51 : ℚ := -11/54

def b_61 : ℚ := 1631/55296

def b_32 : ℚ := 9/40

def b_42 : ℚ := -9/10

def b_52 : ℚ := 5/2

def b_62 : ℚ := 175/512

def b_43 : ℚ := 6/5

def b_53 : ℚ := -70/27

def b_63 : ℚ := 575/13824

def b_54 : ℚ := 35/27

def b_64 : ℚ := 44275/110592

def b_65 : ℚ := 253/4096

def c_1 : ℚ := 37/378

def c_2 : ℚ := 0

def c_3 : ℚ := 250/621

def c_4 : ℚ := 125/594

def c_5 : ℚ := 0

def c_6 : ℚ := 512/1771

def c_1s : ℚ := 2825/27648

def c_2s : ℚ := 0

def c_3s : ℚ := 18575/48384

def c_4s : ℚ := 13525/55296

def c_5s : ℚ := 277/14336

def c_6s : ℚ := 1/4

/-! Step-size control constants of `advectRK45`. -/

def grow_exponent : ℚ := -(1/5)

def shrink_exponent : ℚ := -(1/4)

def max_growth : ℚ := 5

def max_shrink : ℚ := 1/10

def safety : ℚ := 9/10

/-- The six Cash-Karp coefficients `k1`..`k6` of one `advectRK45` loop
iteration. -/
structure CashKarpKs where
  k1 : Vec2
  k2 : Vec2
  k3 : Vec2
  k4 : Vec2
  k5 : Vec2
  k6 : Vec2
deriving DecidableEq, Repr

/-- Compute `k1`..`k6` of one `advectRK45` loop iteration. -/
def rk45Ks (env : KernelEnv) (sign : ℚ) (pos : Vec2) (delta : ℚ) : CashKarpKs :=
  let k1 := (delta * sign) • env.field (pos_to_texcoords env pos)
  let k2 := (delta * sign) • env.field (pos_to_texcoords env (pos + b_21 • k1))
  let k3 := (delta * sign) • env.field (pos_to_texcoords env (pos + b_31 • k1 + b_32 • k2))
  let k4 := (delta * sign) •
    env.field (pos_to_texcoords env (pos + b_41 • k1 + b_42 • k2 + b_43 • k3))
  let k5 := (delta * sign) •
    env.field (pos_to_texcoords env (pos + b_51 • k1 + b_52 • k2 + b_53 • k3 + b_54 • k4))
  let k6 := (delta * sign) •
    env.field (pos_to_texcoords env
      (pos + b_61 • k1 + b_62 • k2 + b_63 • k3 + b_64 • k4 + b_65 • k5))
  ⟨k1, k2, k3, k4, k5, k6⟩

/-- Fifth-order position estimate of one `advectRK45` loop iteration. -/
def rk45Fifth (env : KernelEnv) (sign : ℚ) (pos : Vec2) (delta : ℚ) : Vec2 :=
  let k := rk45Ks env sign pos delta
  pos + c_1 • k.k1 + c_2 • k.k2 + c_3 • k.k3 + c_4 • k.k4 + c_5 • k.k5 + c_6 • k.k6

/-- Fourth-order position estimate of one `advectRK45` loop iteration. -/
def rk45Fourth (env : KernelEnv) (sign : ℚ) (pos : Vec2) (delta : ℚ) : Vec2 :=
  let k := rk45Ks env sign pos delta
  pos + c_1s • k.k1 + c_2s • k.k2 + c_3s • k.k3 + c_4s • k.k4 + c_5s • k.k5 + c_6s • k.k6

/-- Source `difference`: componentwise absolute gap between the fifth- and
fourth-order estimates. -/
def rk45Diff (env : KernelEnv) (sign : ℚ) (pos : Vec2) (delta : ℚ) : Vec2 :=
  vabs (rk45Fifth env sign pos delta - rk45Fourth env sign pos delta)

/-- Source `scale`: the divisor of the per-component error estimate, the
componentwise absolute value of the interpolated field at the current
position (`fabs(texture_interpolation<2>(textures[0], pos_to_texcoords(pos)))`). -/
def rk45Scale (env : KernelEnv) (pos : Vec2) : Vec2 :=
  vabs (env.field (pos_to_texcoords env pos))

/-- Source `error`: the normalized error estimate of one `advectRK45` loop
iteration. -/
def rk45Error (env : KernelEnv) (sign : ℚ) (pos : Vec2) (delta : ℚ) : ℚ :=
  max 0 (max ((rk45Diff env sign pos delta).x / (rk45Scale env pos).x)
            ((rk45Diff env sign pos delta).y / (rk45Scale env pos).y)) / env.maxError

/-- Result of one iteration of the `advectRK45` do-while body: the
fifth-order candidate position (`output_position`), the adapted time step,
the error estimate, and the `decreased` flag. -/
structure RK45Out where
  fifth : Vec2
  newDelta : ℚ
  error : ℚ
  decreased : Bool
deriving DecidableEq, Repr

/-- One iteration of the `advectRK45` do-while body. -/
def rk45Body (env : KernelEnv) (sign : ℚ) (pos : Vec2) (delta : ℚ) : RK45Out :=
  let error := rk45Error env sign pos delta
  if error > 1 then
    { fifth := rk45Fifth env sign pos delta,
      newDelta := delta * max max_shrink (safety * env.pw error shrink_exponent),
      error := error, decreased := true }
  else
    { fifth := rk45Fifth env sign pos delta,
      newDelta := delta * min max_growth (safety * env.pw error grow_exponent),
      error := error, decreased := false }

/-- Result of a completed `advectRK45` call: the committed position, the
time step for the next step, and `used_delta_and_error`. -/
structure RK45Res where
  pos : Vec2
  delta : ℚ
  used : Vec2
deriving DecidableEq, Repr

/-- Source `advectRK45`: the rejection loop, made total by a fuel parameter.
`none` means the do-while loop still rejects after `fuel` iterations (the
source loop, which has no retry bound, would still be running). -/
def advectRK45 (env : KernelEnv) (sign : ℚ) (pos : Vec2) : ℚ → ℕ → Option RK45Res
  | _, 0 => none
  | delta, fuel+1 =>
    let b := rk45Body env sign pos delta
    if b.decreased then advectRK45 env sign pos b.newDelta fuel
    else some ⟨b.fifth, b.newDelta, ⟨delta, b.error⟩⟩

/-- The sequence of time steps attempted by the `advectRK45` rejection
loop: entry `k` is the `delta` used by the `k`-th iteration of the body. -/
def rk45DeltaSeq (env : KernelEnv) (sign : ℚ) (pos : Vec2) (delta : ℚ) : ℕ → ℚ
  | 0 => delta
  | k+1 => (rk45Body env sign pos (rk45DeltaSeq env sign pos delta k)).newDelta

/-- The error estimate produced by the `k`-th iteration of the
`advectRK45` rejection loop. -/
def rk45ErrAt (env : KernelEnv) (sign : ℚ) (pos : Vec2) (delta : ℚ) (k : ℕ) : ℚ :=
  (rk45Body env sign pos (rk45DeltaSeq env sign pos delta k)).error

/-- Source `FLT_MAX`, the initial distance value, as an exact rational. -/
def fltMax : ℚ := 2^128 - 2^104

/-- Source `update_label_and_dist` (scalar overload): store the new label and
distance only if the distance to the convergence structure is smaller
than the previous one. -/
def update_label_and_dist (label_conv_structure : ℤ) (dist_conv_structure : ℚ)
    (label : ℤ) (distance : ℚ) : ℤ × ℚ :=
  if dist_conv_structure < distance then (label_conv_structure, dist_conv_structure)
  else (label, distance)

/-- Source `update_label_and_dist` (aggregate overload): fold the scalar update
over all convergence points (Euclidean distance via `length`) and then all
line segments (`distance_point_line`). -/
def updateLabelDistAll (env : KernelEnv) (pos : Vec2) (label : ℤ) (distance : ℚ) :
    ℤ × ℚ :=
  let afterPoints := env.points.foldl
    (fun ld pr => update_label_and_dist pr.2 (env.len (pos - pr.1)) ld.1 ld.2)
    (label, distance)
  env.lines.foldl
    (fun ld lr => update_label_and_dist lr.2.2 (env.distPL pos lr.1 lr.2.1) ld.1 ld.2)
    afterPoints

/-- The fresh minimum distance computed in the stagnation branch of
`compute_streamlines_kernel` (local `dist`, shadowing the recorded one):
minimum over all convergence points and line segments, starting from
`FLT_MAX`. -/
def stagnationDist (env : KernelEnv) (pos : Vec2) : ℚ :=
  let dp := env.points.foldl (fun d pr => min d (env.len (pos - pr.1))) fltMax
  env.lines.foldl (fun d lr => min d (env.distPL pos lr.1 lr.2.1)) dp

/-- The stagnation-classification threshold of
`compute_streamlines_kernel`: `0.5f * fminf(const_data[6].x, const_data[6].y)`,
half of the smaller cell extent. -/
def stagnationThreshold (env : KernelEnv) : ℚ :=
  (1/2 : ℚ) * min env.cellSize.x env.cellSize.y

/-- Source `pos_01`: position transformed to `[0,1]²` domain space. -/
def pos01 (env : KernelEnv) (pos : Vec2) : Vec2 :=
  (pos - env.domainOffset) * env.domainScale

/-- The domain-exit test of `compute_streamlines_kernel`. -/
def outsideDomain (env : KernelEnv) (pos : Vec2) : Prop :=
  (pos01 env pos).x < 0 ∨ (pos01 env pos).x > 1 ∨
    (pos01 env pos).y < 0 ∨ (pos01 env pos).y > 1

instance (env : KernelEnv) (pos : Vec2) : Decidable (outsideDomain env pos) :=
  inferInstanceAs (Decidable (_ ∨ _ ∨ _ ∨ _))

/-- Per-particle loop state of `compute_streamlines_kernel`: position, the
adaptive time step `step`, label, recorded distance, termination code. -/
structure KState where
  pos : Vec2
  step : ℚ
  label : ℤ
  dist : ℚ
  termination : ℤ
deriving DecidableEq, Repr

/-- One particle record of the batch dispatcher: position, label,
recorded distance, termination code. -/
structure Particle where
  pos : Vec2
  label : ℤ
  dist : ℚ
  termination : ℤ
deriving DecidableEq, Repr

/-- The method dispatch inside the integration loop: method 0 advects
with `advectRK4` at time-step coefficient `const_data[4].x`, method 1 with
`advectRK45` (updating `step` in place); any other method leaves the
position unchanged.  `none` signals a non-terminating `advectRK45`
rejection loop (fuel exhausted). -/
def advectStep (env : KernelEnv) (sign : ℚ) (fuel : ℕ) (pos : Vec2) (step : ℚ) :
    Option (Vec2 × ℚ) :=
  if env.method = 0 then some (advectRK4 env pos env.timeScale sign, step)
  else if env.method = 1 then
    (advectRK45 env sign pos step fuel).map (fun r => (r.pos, r.delta))
  else some (pos, step)

/-- One iteration of the `for` loop of `compute_streamlines_kernel`:
advect, update label and distance, then classify.  Returns the new state
and whether the loop `break`s. -/
def kernelStepBody (env : KernelEnv) (sign : ℚ) (fuel : ℕ) (st : KState) :
    Option (KState × Bool) :=
  (advectStep env sign fuel st.pos st.step).map (fun ps =>
    if st.pos = ps.1 then
      ({ pos := ps.1, step := ps.2,
         label := (updateLabelDistAll env ps.1 st.label st.dist).1,
         dist := (updateLabelDistAll env ps.1 st.label st.dist).2,
         termination := if stagnationDist env ps.1 < stagnationThreshold env then 3 else 2 },
       true)
    else if outsideDomain env ps.1 then
      ({ pos := ps.1, step := ps.2,
         label := (updateLabelDistAll env ps.1 st.label st.dist).1,
         dist := (updateLabelDistAll env ps.1 st.label st.dist).2, termination := 1 }, true)
    else
      ({ pos := ps.1, step := ps.2,
         label := (updateLabelDistAll env ps.1 st.label st.dist).1,
         dist := (updateLabelDistAll env ps.1 st.label st.dist).2,
         termination := st.termination }, false))

/-- The `for (int j = 0; j < num_steps; ++j)` loop of
`compute_streamlines_kernel`. -/
def kernelLoop (env : KernelEnv) (sign : ℚ) (fuel : ℕ) : ℕ → KState → Option KState
  | 0, st => some st
  | n+1, st =>
    match kernelStepBody env sign fuel st with
    | none => none
    | some (st1, stop) => if stop then some st1 else kernelLoop env sign fuel n st1

/-- Predicate `runsClean`: the first `n` iterations of the integration loop all take
the continue branch (no stagnation and no domain exit occurs). -/
def runsClean (env : KernelEnv) (sign : ℚ) (fuel : ℕ) : ℕ → KState → Bool
  | 0, _ => true
  | n+1, st =>
    match kernelStepBody env sign fuel st with
    | some (st1, false) => runsClean env sign fuel n st1
    | _ => false

/-- Source `compute_streamlines_kernel`, restricted to one particle (one `gid`):
skip if already terminated, otherwise run the initial label/distance
update, initialize the adaptive time step from the step-size texture, run
the integration loop, and write the results back. -/
def compute_streamlines_particle (env : KernelEnv) (sign : ℚ) (fuel numSteps : ℕ)
    (p : Particle) : Option Particle :=
  if p.termination = 0 then
    (kernelLoop env sign fuel numSteps
        { pos := p.pos,
          step := env.timeScale * env.stepSizeTex (pos_to_texcoords env p.pos),
          label := (updateLabelDistAll env p.pos p.label p.dist).1,
          dist := (updateLabelDistAll env p.pos p.label p.dist).2,
          termination := 0 }).map
      (fun st => { pos := st.pos, label := st.label, dist := st.dist,
                   termination := st.termination })
  else some p

/-- Apply the per-particle kernel to every particle of one batch, in
order; `none` as soon as one particle diverges. -/
def mapParticles (f : Particle → Option Particle) : List Particle → Option (List Particle)
  | [] => some []
  | p :: l => (f p).bind (fun q => (mapParticles f l).map (fun ql => q :: ql))

/-- The batch loop of `streamlines_cuda_impl::update_labels`: process the
particle set in consecutive chunks of at most `B` particles.  The fuel
argument only serves termination (the source `for` loop advances `offset`
by `B` each round and would not terminate for `B = 0`). -/
def update_labels_go (f : Particle → Option Particle) (B : ℕ) :
    ℕ → List Particle → Option (List Particle)
  | _, [] => some []
  | 0, l => some l
  | fuel+1, l =>
    (mapParticles f (l.take B)).bind
      (fun a => (update_labels_go f B fuel (l.drop B)).map (fun b => a ++ b))

/-- Source `streamlines_cuda_impl::update_labels` (data flow): partition the
particle set into batches of size `B` and run the kernel on each batch. -/
def update_labels (f : Particle → Option Particle) (B : ℕ) (l : List Particle) :
    Option (List Particle) :=
  update_labels_go f B l.length l

/-- One CUDA device operation of the backend, with its name and whether
the source checks its return value (`checked = false` models a call whose
`cudaError_t` result is discarded). -/
structure DevOpSpec where
  name : String
  checked : Bool
deriving DecidableEq, Repr

/-- Execute a sequence of device operations against an outcome oracle
`env` (entry `k` tells whether the `k`-th attempted operation succeeds).
A failing checked operation aborts with its name and the number of
operations attempted so far; a failing unchecked operation is silently
ignored.  On success the total number of attempted operations is
returned.  Each operation consumes exactly one oracle entry, so no
operation is ever retried. -/
def runDevOps (env : ℕ → Bool) : List DevOpSpec → ℕ → Except (String × ℕ) ℕ
  | [], n => Except.ok n
  | op :: rest, n =>
    if env n then runDevOps env rest (n+1)
    else if op.checked then Except.error (op.name, n+1)
    else runDevOps env rest (n+1)

/-- The four `cudaMalloc` calls at the top of
`streamlines_cuda_impl::update_labels`, all checked. -/
def allocOps : List DevOpSpec :=
  [⟨"cudaMalloc labels", true⟩, ⟨"cudaMalloc distances", true⟩,
   ⟨"cudaMalloc terminations", true⟩, ⟨"cudaMalloc particles", true⟩]

/-- The eight `cudaMemcpy` calls of one batch of
`streamlines_cuda_impl::update_labels` (four host-to-device uploads, four
device-to-host downloads), all checked. -/
def batchOps : List DevOpSpec :=
  [⟨"cudaMemcpy labels HtoD", true⟩, ⟨"cudaMemcpy distances HtoD", true⟩,
   ⟨"cudaMemcpy terminations HtoD", true⟩, ⟨"cudaMemcpy particles HtoD", true⟩,
   ⟨"cudaMemcpy labels DtoH", true⟩, ⟨"cudaMemcpy distances DtoH", true⟩,
   ⟨"cudaMemcpy terminations DtoH", true⟩, ⟨"cudaMemcpy particles DtoH", true⟩]

/-- Builds `n` repetitions of an operation block, one per batch. -/
def repeatOps : ℕ → List DevOpSpec → List DevOpSpec
  | 0, _ => []
  | n+1, ops => ops ++ repeatOps n ops

/-- The checked device operations of one
`streamlines_cuda_impl::update_labels` call with `nBatches` batches. -/
def updateLabelsOps (nBatches : ℕ) : List DevOpSpec :=
  allocOps ++ repeatOps nBatches batchOps

/-- The device operations of the `streamlines_cuda_impl` constructor, in
source order.  The `cudaMemcpyToSymbol` transfers discard their
`cudaError_t` result (`checked = false`); the allocations and transfers
inside the two `initialize_texture` overloads are checked and throw. -/
def constructorOps (hasPoints hasLines : Bool) : List DevOpSpec :=
  [⟨"cudaMemcpyToSymbol const_data", false⟩,
   ⟨"cudaMallocArray velocity", true⟩, ⟨"cudaMemcpyToArray velocity", true⟩,
   ⟨"cudaMemcpyToSymbol velocity_texture", false⟩,
   ⟨"cudaMallocArray rk4_step", true⟩, ⟨"cudaMemcpyToArray rk4_step", true⟩,
   ⟨"cudaMemcpyToSymbol rk4_step_texture", false⟩]
  ++ (if hasPoints then
    [⟨"cudaMalloc convergence_points", true⟩, ⟨"cudaMemcpy convergence_points", true⟩,
     ⟨"cudaMalloc convergence_point_ids", true⟩, ⟨"cudaMemcpy convergence_point_ids", true⟩,
     ⟨"cudaMemcpyToSymbol convergence_points_texture", false⟩,
     ⟨"cudaMemcpyToSymbol convergence_point_ids_texture", false⟩] else [])
  ++ (if hasLines then
    [⟨"cudaMalloc convergence_lines", true⟩, ⟨"cudaMemcpy convergence_lines", true⟩,
     ⟨"cudaMalloc convergence_line_ids", true⟩, ⟨"cudaMemcpy convergence_line_ids", true⟩,
     ⟨"cudaMemcpyToSymbol convergence_lines_texture", false⟩,
     ⟨"cudaMemcpyToSymbol convergence_line_ids_texture", false⟩] else [])

/-- A concrete test environment: a zero vector field over a domain with
cell size `(3, 4)` (cell diagonal exactly `5`), one convergence point
with label `7` at `(12, 5)`, no line segments, fixed RK4 integration.
The `len` oracle is the taxicab norm, which agrees with the Euclidean
norm on every vector it is queried at in the proofs below (all such
vectors have a zero component). -/
def testEnv : KernelEnv where
  field := fun _ => ⟨0, 0⟩
  stepSizeTex := fun _ => 1
  len := fun v => |v.x| + |v.y|
  distPL := fun _ _ _ => 0
  pw := fun _ _ => 1
  domainOffset := ⟨0, 0⟩
  domainScale := ⟨1/100, 1/100⟩
  textureOffset := ⟨-(1/2), -(1/2)⟩
  textureScale := ⟨99, 99⟩
  cellSize := ⟨3, 4⟩
  timeScale := 1
  maxError := 1
  points := [(⟨12, 5⟩, 7)]
  lines := []
  method := 0

/-- A fresh seed particle at `(10, 5)` for `testEnv`. -/
def testParticle : Particle := ⟨⟨10, 5⟩, -1, fltMax, 0⟩

/-- Variant of `testEnv` with a constant field `(1, 0)` instead of the zero field. -/
def constEnv : KernelEnv := { testEnv with field := fun _ => ⟨1, 0⟩ }

/-- Variant of `testEnv` with a field whose x-component vanishes everywhere while the
y-component is `1`. -/
def zeroXEnv : KernelEnv := { testEnv with field := fun _ => ⟨0, 1⟩ }

/-- A sampler that agrees with `constEnv.field` on every texture
coordinate with `x ≤ 500` (in particular on all four points that
`advectRK4` evaluates in the witnesses below) but differs far away. -/
def g5 : Vec2 → Vec2 := fun v => if v.x ≤ 500 then ⟨1, 0⟩ else ⟨7, 7⟩

/-- A variant of `testEnv` with unit cells, identity texture transform and
the constant field `(1, 0)`, used to exercise the fixed RK4 integrator on
concrete inputs. -/
def c5Env : KernelEnv :=
  { testEnv with
    field := fun _ => ⟨1, 0⟩
    domainScale := ⟨1, 1⟩
    textureScale := ⟨1, 1⟩
    textureOffset := ⟨0, 0⟩
    cellSize := ⟨1, 1⟩ }

/-- A particle that is already terminated (termination code 1). -/
def c7Particle : Particle := ⟨⟨1, 1⟩, 3, 5, 1⟩

/-- Predicate `DistMono label dist r`: the updated pair `r` has a distance no larger
than `dist`, and its label differs from `label` only if its distance is
strictly smaller. -/
def DistMono (label : ℤ) (dist : ℚ) (r : ℤ × ℚ) : Prop :=
  r.2 ≤ dist ∧ (r.1 ≠ label → r.2 < dist)

theorem Vec2.add_x (a b : Vec2) : (a + b).x = a.x + b.x := rfl

theorem Vec2.add_y (a b : Vec2) : (a + b).y = a.y + b.y := rfl

theorem Vec2.sub_x (a b : Vec2) : (a - b).x = a.x - b.x := rfl

theorem Vec2.sub_y (a b : Vec2) : (a - b).y = a.y - b.y := rfl

theorem Vec2.mul_x (a b : Vec2) : (a * b).x = a.x * b.x := rfl

theorem Vec2.mul_y (a b : Vec2) : (a * b).y = a.y * b.y := rfl

theorem Vec2.smul_x (c : ℚ) (v : Vec2) : (c • v).x = c * v.x := rfl

theorem Vec2.smul_y (c : ℚ) (v : Vec2) : (c • v).y = c * v.y := rfl

theorem Vec2.eq_of_xy {a b : Vec2} (hx : a.x = b.x) (hy : a.y = b.y) : a = b := by
  cases a; cases b; simp_all

theorem Vec2.add_def (a b : Vec2) : a + b = ⟨a.x + b.x, a.y + b.y⟩ := rfl

theorem Vec2.sub_def (a b : Vec2) : a - b = ⟨a.x - b.x, a.y - b.y⟩ := rfl

theorem Vec2.mul_def (a b : Vec2) : a * b = ⟨a.x * b.x, a.y * b.y⟩ := rfl

theorem Vec2.smul_def (c : ℚ) (v : Vec2) : c • v = ⟨c * v.x, c * v.y⟩ := rfl

theorem distMono_update (nl : ℤ) (nd : ℚ) (l : ℤ) (d : ℚ) :
    DistMono l d (update_label_and_dist nl nd l d) := by
  unfold update_label_and_dist DistMono
  split_ifs with h
  · exact ⟨le_of_lt h, fun _ => h⟩
  · exact ⟨le_refl _, fun hc => absurd rfl hc⟩

theorem distMono_trans {l : ℤ} {d : ℚ} {r1 r2 : ℤ × ℚ}
    (h1 : DistMono l d r1) (h2 : DistMono r1.1 r1.2 r2) : DistMono l d r2 := by
  obtain ⟨h1le, h1lt⟩ := h1
  obtain ⟨h2le, h2lt⟩ := h2
  refine ⟨le_trans h2le h1le, fun hne => ?_⟩
  by_cases he : r2.1 = r1.1
  · exact lt_of_le_of_lt h2le (h1lt (he ▸ hne))
  · exact lt_of_lt_of_le (h2lt he) h1le

theorem distMono_foldl {α : Type} (f : ℤ × ℚ → α → ℤ × ℚ)
    (hf : ∀ acc a, DistMono acc.1 acc.2 (f acc a)) :
    ∀ (l : List α) (init : ℤ × ℚ), DistMono init.1 init.2 (l.foldl f init) := by
  intro l
  induction l with
  | nil => exact fun init => ⟨le_refl _, fun hc => absurd rfl hc⟩
  | cons a t ih => exact fun init => distMono_trans (hf init a) (ih (f init a))

theorem updateLabelDistAll_mono (env : KernelEnv) (pos : Vec2) (label : ℤ) (dist : ℚ) :
    DistMono label dist (updateLabelDistAll env pos label dist) := by
  unfold updateLabelDistAll
  exact distMono_trans
    (distMono_foldl _ (fun acc pr => distMono_update _ _ _ _) env.points (label, dist))
    (distMono_foldl _ (fun acc lr => distMono_update _ _ _ _) env.lines _)

theorem kernelStepBody_elim (env : KernelEnv) (sign : ℚ) (fuel : ℕ) (st st' : KState)
    (stop : Bool) (h : kernelStepBody env sign fuel st = some (st', stop)) :
    ∃ ps : Vec2 × ℚ, advectStep env sign fuel st.pos st.step = some ps ∧
      st'.pos = ps.1 ∧ st'.step = ps.2 ∧
      st'.label = (updateLabelDistAll env ps.1 st.label st.dist).1 ∧
      st'.dist = (updateLabelDistAll env ps.1 st.label st.dist).2 ∧
      ((st.pos = ps.1 ∧ stop = true ∧
          st'.termination =
            (if stagnationDist env ps.1 < stagnationThreshold env then 3 else 2)) ∨
       (st.pos ≠ ps.1 ∧ outsideDomain env ps.1 ∧ stop = true ∧ st'.termination = 1) ∨
       (st.pos ≠ ps.1 ∧ ¬ outsideDomain env ps.1 ∧ stop = false ∧
          st'.termination = st.termination)) := by
  unfold kernelStepBody at h
  cases hadv : advectStep env sign fuel st.pos st.step with
  | none => rw [hadv] at h; simp at h
  | some ps =>
    rw [hadv] at h
    simp only [Option.map_some'] at h
    have h2 := Option.some.inj h
    by_cases h1 : st.pos = ps.1
    · rw [if_pos h1] at h2
      obtain ⟨h3, h4⟩ := Prod.mk.inj h2
      subst h3; subst h4
      exact ⟨ps, rfl, rfl, rfl, rfl, rfl, Or.inl ⟨h1, rfl, rfl⟩⟩
    · rw [if_neg h1] at h2
      by_cases hOut : outsideDomain env ps.1
      · rw [if_pos hOut] at h2
        obtain ⟨h3, h4⟩ := Prod.mk.inj h2
        subst h3; subst h4
        exact ⟨ps, rfl, rfl, rfl, rfl, rfl, Or.inr (Or.inl ⟨h1, hOut, rfl, rfl⟩)⟩
      · rw [if_neg hOut] at h2
        obtain ⟨h3, h4⟩ := Prod.mk.inj h2
        subst h3; subst h4
        exact ⟨ps, rfl, rfl, rfl, rfl, rfl, Or.inr (Or.inr ⟨h1, hOut, rfl, rfl⟩)⟩

theorem kernelStepBody_dist_le (env : KernelEnv) (sign : ℚ) (fuel : ℕ) {st st' : KState}
    {stop : Bool} (h : kernelStepBody env sign fuel st = some (st', stop)) :
    st'.dist ≤ st.dist := by
  obtain ⟨ps, _, _, _, _, hdist, _⟩ := kernelStepBody_elim env sign fuel st st' stop h
  rw [hdist]
  exact (updateLabelDistAll_mono env ps.1 st.label st.dist).1

theorem kernelStepBody_stop_term (env : KernelEnv) (sign : ℚ) (fuel : ℕ) {st st' : KState}
    (h : kernelStepBody env sign fuel st = some (st', true)) :
    st'.termination = 1 ∨ st'.termination = 2 ∨ st'.termination = 3 := by
  obtain ⟨ps, _, _, _, _, _, hc⟩ := kernelStepBody_elim env sign fuel st st' true h
  rcases hc with ⟨_, _, ht⟩ | ⟨_, _, _, ht⟩ | ⟨_, _, hstop, _⟩
  · rw [ht]
    split_ifs
    · right; right; rfl
    · right; left; rfl
  · left; exact ht
  · cases hstop
  
theorem kernelStepBody_continue_term (env : KernelEnv) (sign : ℚ) (fuel : ℕ) {st st' : KState}
    (h : kernelStepBody env sign fuel st = some (st', false)) :
    st'.termination = st.termination := by
  obtain ⟨ps, _, _, _, _, _, hc⟩ := kernelStepBody_elim env sign fuel st st' false h
  rcases hc with ⟨_, hstop, _⟩ | ⟨_, _, hstop, _⟩ | ⟨_, _, _, ht⟩
  · cases hstop
  · cases hstop
  · exact ht

theorem kernelLoop_dist_le (env : KernelEnv) (sign : ℚ) (fuel : ℕ) :
    ∀ (n : ℕ) (st st' : KState), kernelLoop env sign fuel n st = some st' →
      st'.dist ≤ st.dist := by
  intro n
  induction n with
  | zero =>
    intro st st' h
    obtain rfl : st = st' := Option.some.inj h
    exact le_refl _
  | succ n ih =>
    intro st st' h
    unfold kernelLoop at h
    cases hb : kernelStepBody env sign fuel st with
    | none => rw [hb] at h; cases h
    | some pr =>
      obtain ⟨st1, stop⟩ := pr
      rw [hb] at h
      cases stop with
      | true =>
        simp only [if_true] at h
        obtain rfl : st1 = st' := Option.some.inj h
        exact kernelStepBody_dist_le env sign fuel hb
      | false =>
        simp only [Bool.false_eq_true, if_false] at h
        exact le_trans (ih st1 st' h) (kernelStepBody_dist_le env sign fuel hb)

theorem kernelLoop_term_cases (env : KernelEnv) (sign : ℚ) (fuel : ℕ) :
    ∀ (n : ℕ) (st st' : KState), kernelLoop env sign fuel n st = some st' →
      st'.termination = st.termination ∨ st'.termination = 1 ∨
        st'.termination = 2 ∨ st'.termination = 3 := by
  intro n
  induction n with
  | zero =>
    intro st st' h
    obtain rfl : st = st' := Option.some.inj h
    exact Or.inl rfl
  | succ n ih =>
    intro st st' h
    unfold kernelLoop at h
    cases hb : kernelStepBody env sign fuel st with
    | none => rw [hb] at h; cases h
    | some pr =>
      obtain ⟨st1, stop⟩ := pr
      rw [hb] at h
      cases stop with
      | true =>
        simp only [if_true] at h
        obtain rfl : st1 = st' := Option.some.inj h
        exact Or.inr (kernelStepBody_stop_term env sign fuel hb)
      | false =>
        simp only [Bool.false_eq_true, if_false] at h
        rcases ih st1 st' h with hsame | hrest
        · exact Or.inl (hsame.trans (kernelStepBody_continue_term env sign fuel hb))
        · exact Or.inr hrest

theorem runsClean_kernelLoop (env : KernelEnv) (sign : ℚ) (fuel : ℕ) :
    ∀ (n : ℕ) (st : KState), runsClean env sign fuel n st = true →
      ∃ st', kernelLoop env sign fuel n st = some st' ∧
        st'.termination = st.termination := by
  intro n
  induction n with
  | zero => exact fun st _ => ⟨st, rfl, rfl⟩
  | succ n ih =>
    intro st hclean
    unfold runsClean at hclean
    cases hb : kernelStepBody env sign fuel st with
    | none => rw [hb] at hclean; simp at hclean
    | some pr =>
      obtain ⟨st1, stop⟩ := pr
      rw [hb] at hclean
      cases stop with
      | true => simp at hclean
      | false =>
        simp only at hclean
        obtain ⟨st', hloop, hterm⟩ := ih st1 hclean
        refine ⟨st', ?_, hterm.trans (kernelStepBody_continue_term env sign fuel hb)⟩
        unfold kernelLoop
        rw [hb]
        simpa using hloop

/-- C1 (amended): per integration step of `compute_streamlines_kernel`, a
numerically unchanged position stops the particle with termination 3 when
the fresh minimum distance to a convergence structure is below half of the
smaller cell extent (`0.5 * min(cellx, celly)`, not half the cell
diagonal) and 2 otherwise; a changed position outside `[0,1]²` in
transformed domain space stops it with termination 1; otherwise the step
continues and leaves the termination code unchanged.  Over a whole batch,
the termination code is either unchanged (step budget exhausted with
neither case occurring, in particular remaining 0 for an active particle)
or set to 1, 2 or 3; and a run in which every step continues ends with the
termination code unchanged. -/
theorem c1_termination_classification :
    (∀ (env : KernelEnv) (sign : ℚ) (fuel : ℕ) (st st' : KState) (stop : Bool),
        kernelStepBody env sign fuel st = some (st', stop) →
        ((st'.pos = st.pos → stop = true ∧
            st'.termination =
              (if stagnationDist env st'.pos < stagnationThreshold env then 3 else 2)) ∧
         (st'.pos ≠ st.pos → outsideDomain env st'.pos → stop = true ∧ st'.termination = 1) ∧
         (st'.pos ≠ st.pos → ¬ outsideDomain env st'.pos →
            stop = false ∧ st'.termination = st.termination))) ∧
    (∀ (env : KernelEnv) (sign : ℚ) (fuel n : ℕ) (st st' : KState),
        kernelLoop env sign fuel n st = some st' →
        st'.termination = st.termination ∨ st'.termination = 1 ∨
          st'.termination = 2 ∨ st'.termination = 3) ∧
    (∀ (env : KernelEnv) (sign : ℚ) (fuel n : ℕ) (st : KState),
        runsClean env sign fuel n st = true →
        ∃ st', kernelLoop env sign fuel n st = some st' ∧
          st'.termination = st.termination) := by
  refine ⟨?_, kernelLoop_term_cases, runsClean_kernelLoop⟩
  intro env sign fuel st st' stop h
  obtain ⟨ps, _, hpos, _, _, _, hc⟩ := kernelStepBody_elim env sign fuel st st' stop h
  rcases hc with ⟨hp, hstop, ht⟩ | ⟨hp, hout, hstop, ht⟩ | ⟨hp, hout, hstop, ht⟩
  · refine ⟨fun _ => ⟨hstop, ?_⟩, fun hne _ => absurd (hpos.trans hp.symm) hne,
      fun hne _ => absurd (hpos.trans hp.symm) hne⟩
    rw [hpos]
    exact ht
  · refine ⟨fun hpp => absurd (hpp.symm.trans hpos) hp, fun _ _ => ⟨hstop, ht⟩,
      fun _ hnout => absurd (hpos ▸ hout) hnout⟩
  · refine ⟨fun hpp => absurd (hpp.symm.trans hpos) hp, fun _ hout2 => ?_,
      fun _ _ => ⟨hstop, ht⟩⟩
    rw [hpos] at hout2
    exact absurd hout2 hout


theorem stepsPerCell_of_len_zero (env : KernelEnv) (pos : Vec2)
    (h : env.len (env.field (pos_to_texcoords env pos)) = 0) :
    stepsPerCell env pos = 0 := by
  unfold stepsPerCell
  rw [h]
  simp

theorem zero_coeff_smul (d s : ℚ) (v : Vec2) : ((0 : ℚ) * d * s) • v = (⟨0, 0⟩ : Vec2) := by
  apply Vec2.eq_of_xy <;> simp [Vec2.smul_x, Vec2.smul_y]

theorem rk4k1_of_len_zero (env : KernelEnv) (pos : Vec2) (delta sign : ℚ)
    (h : env.len (env.field (pos_to_texcoords env pos)) = 0) :
    rk4k1 env pos delta sign = ⟨0, 0⟩ := by
  unfold rk4k1
  rw [stepsPerCell_of_len_zero env pos h]
  exact zero_coeff_smul _ _ _

theorem rk4k2_of_len_zero (env : KernelEnv) (pos : Vec2) (delta sign : ℚ)
    (h : env.len (env.field (pos_to_texcoords env pos)) = 0) :
    rk4k2 env pos delta sign = ⟨0, 0⟩ := by
  unfold rk4k2
  rw [stepsPerCell_of_len_zero env pos h]
  exact zero_coeff_smul _ _ _

theorem rk4k3_of_len_zero (env : KernelEnv) (pos : Vec2) (delta sign : ℚ)
    (h : env.len (env.field (pos_to_texcoords env pos)) = 0) :
    rk4k3 env pos delta sign = ⟨0, 0⟩ := by
  unfold rk4k3
  rw [stepsPerCell_of_len_zero env pos h]
  exact zero_coeff_smul _ _ _

theorem rk4k4_of_len_zero (env : KernelEnv) (pos : Vec2) (delta sign : ℚ)
    (h : env.len (env.field (pos_to_texcoords env pos)) = 0) :
    rk4k4 env pos delta sign = ⟨0, 0⟩ := by
  unfold rk4k4
  rw [stepsPerCell_of_len_zero env pos h]
  exact zero_coeff_smul _ _ _

theorem advectRK4_of_len_zero (env : KernelEnv) (pos : Vec2) (delta sign : ℚ)
    (h : env.len (env.field (pos_to_texcoords env pos)) = 0) :
    advectRK4 env pos delta sign = pos := by
  unfold advectRK4
  rw [rk4k1_of_len_zero env pos delta sign h, rk4k2_of_len_zero env pos delta sign h,
    rk4k3_of_len_zero env pos delta sign h, rk4k4_of_len_zero env pos delta sign h]
  apply Vec2.eq_of_xy <;>
    simp [Vec2.add_x, Vec2.add_y, Vec2.smul_x, Vec2.smul_y]

theorem testEnv_len_field_zero (x : Vec2) : testEnv.len (testEnv.field x) = 0 := by
  simp [testEnv]

theorem advectRK4_testEnv (p : Vec2) (delta sign : ℚ) : advectRK4 testEnv p delta sign = p :=
  advectRK4_of_len_zero testEnv p delta sign (testEnv_len_field_zero _)

theorem updateLabelDistAll_testEnv_at :
    updateLabelDistAll testEnv ⟨10, 5⟩ 7 2 = (7, 2) := by
  norm_num [updateLabelDistAll, testEnv, update_label_and_dist, Vec2.sub_def]

theorem updateLabelDistAll_testEnv_init :
    updateLabelDistAll testEnv ⟨10, 5⟩ (-1) fltMax = (7, 2) := by
  norm_num [updateLabelDistAll, testEnv, update_label_and_dist, Vec2.sub_def, fltMax]

theorem stagnationDist_testEnv : stagnationDist testEnv ⟨10, 5⟩ = 2 := by
  norm_num [stagnationDist, testEnv, fltMax, Vec2.sub_def, min_def]

theorem stagnationThreshold_testEnv : stagnationThreshold testEnv = 3/2 := by
  norm_num [stagnationThreshold, testEnv, min_def]

theorem advectStep_testEnv (p : Vec2) (s : ℚ) (fuel : ℕ) :
    advectStep testEnv 1 fuel p s = some (p, s) := by
  unfold advectStep
  rw [if_pos (by rfl : testEnv.method = 0), advectRK4_testEnv]

theorem kernelStepBody_testEnv :
    kernelStepBody testEnv 1 0 { pos := ⟨10, 5⟩, step := 1, label := 7, dist := 2, termination := 0 }
      = some ({ pos := ⟨10, 5⟩, step := 1, label := 7, dist := 2, termination := 2 }, true) := by
  unfold kernelStepBody
  rw [advectStep_testEnv]
  simp only [Option.map_some', if_true]
  rw [updateLabelDistAll_testEnv_at, stagnationDist_testEnv, stagnationThreshold_testEnv]
  norm_num

theorem kernelLoop_testEnv :
    kernelLoop testEnv 1 0 1 { pos := ⟨10, 5⟩, step := 1, label := 7, dist := 2, termination := 0 }
      = some { pos := ⟨10, 5⟩, step := 1, label := 7, dist := 2, termination := 2 } := by
  unfold kernelLoop
  rw [kernelStepBody_testEnv]
  rfl

theorem csp_testEnv :
    compute_streamlines_particle testEnv 1 0 1 testParticle
      = some { pos := ⟨10, 5⟩, label := 7, dist := 2, termination := 2 } := by
  unfold compute_streamlines_particle testParticle
  rw [if_pos rfl]
  have hstep : testEnv.timeScale * testEnv.stepSizeTex
      (pos_to_texcoords testEnv (⟨10, 5⟩ : Vec2)) = 1 := by
    norm_num [testEnv]
  rw [hstep, updateLabelDistAll_testEnv_init]
  rw [show ((7, 2) : ℤ × ℚ).1 = 7 from rfl, show ((7, 2) : ℤ × ℚ).2 = 2 from rfl]
  rw [kernelLoop_testEnv]
  rfl

theorem rk45Ks_constEnv (p : Vec2) :
    rk45Ks constEnv 1 p 1 = ⟨⟨1, 0⟩, ⟨1, 0⟩, ⟨1, 0⟩, ⟨1, 0⟩, ⟨1, 0⟩, ⟨1, 0⟩⟩ := by
  norm_num [rk45Ks, constEnv, Vec2.smul_def]

theorem rk45Fifth_constEnv : rk45Fifth constEnv 1 ⟨0, 0⟩ 1 = ⟨1, 0⟩ := by
  unfold rk45Fifth
  rw [rk45Ks_constEnv]
  norm_num [Vec2.add_def, Vec2.smul_def, c_1, c_2, c_3, c_4, c_5, c_6]

theorem rk45Fourth_constEnv : rk45Fourth constEnv 1 ⟨0, 0⟩ 1 = ⟨1, 0⟩ := by
  unfold rk45Fourth
  rw [rk45Ks_constEnv]
  norm_num [Vec2.add_def, Vec2.smul_def, c_1s, c_2s, c_3s, c_4s, c_5s, c_6s]

theorem rk45Error_constEnv : rk45Error constEnv 1 ⟨0, 0⟩ 1 = 0 := by
  unfold rk45Error rk45Diff rk45Scale
  rw [rk45Fifth_constEnv, rk45Fourth_constEnv]
  norm_num [Vec2.sub_def, vabs, constEnv, testEnv]

theorem rk45Body_constEnv :
    rk45Body constEnv 1 ⟨0, 0⟩ 1 = ⟨⟨1, 0⟩, 9/10, 0, false⟩ := by
  unfold rk45Body
  rw [rk45Error_constEnv, rk45Fifth_constEnv]
  norm_num [max_growth, safety, grow_exponent, constEnv, testEnv, min_def]

theorem advectRK45_constEnv :
    advectRK45 constEnv 1 ⟨0, 0⟩ 1 1 = some ⟨⟨1, 0⟩, 9/10, ⟨1, 0⟩⟩ := by
  unfold advectRK45
  rw [rk45Body_constEnv]
  rfl

theorem rk45ErrAt_constEnv : rk45ErrAt constEnv 1 ⟨0, 0⟩ 1 0 = 0 := by
  unfold rk45ErrAt rk45DeltaSeq
  rw [rk45Body_constEnv]

theorem stepsPerCell_c5Env (p : Vec2) : stepsPerCell c5Env p = 1 := by
  norm_num [stepsPerCell, c5Env, testEnv]

theorem rk4k1_c5Env : rk4k1 c5Env ⟨0, 0⟩ 1 1 = ⟨1, 0⟩ := by
  unfold rk4k1
  rw [stepsPerCell_c5Env]
  norm_num [c5Env, Vec2.smul_def]

theorem rk4k2_c5Env : rk4k2 c5Env ⟨0, 0⟩ 1 1 = ⟨1, 0⟩ := by
  unfold rk4k2
  rw [stepsPerCell_c5Env]
  norm_num [c5Env, Vec2.smul_def]

theorem rk4k3_c5Env : rk4k3 c5Env ⟨0, 0⟩ 1 1 = ⟨1, 0⟩ := by
  unfold rk4k3
  rw [stepsPerCell_c5Env]
  norm_num [c5Env, Vec2.smul_def]

theorem tex_c5Env (p : Vec2) : pos_to_texcoords c5Env p = ⟨p.x, p.y⟩ := by
  norm_num [pos_to_texcoords, c5Env, testEnv, Vec2.sub_def, Vec2.mul_def]

/-- C5: one fixed RK4 step uses exactly the 4 field evaluations at `pos`,
`pos + 0.5*k1`, `pos + 0.5*k2` and `pos + k3` (two samplers agreeing at
those four points advect identically), and every coefficient `k_i` is the
field value there scaled by `steps_per_cell * delta * sign`, with the
step combining them as `(1/6)(k1 + 2k2 + 2k3 + k4)`. -/
theorem c5_rk4_structure (env : KernelEnv) (g : Vec2 → Vec2) (pos : Vec2) (delta sign : ℚ)
    (h1 : g (pos_to_texcoords env pos) = env.field (pos_to_texcoords env pos))
    (h2 : g (pos_to_texcoords env (pos + ((1 : ℚ)/2) • rk4k1 env pos delta sign)) =
      env.field (pos_to_texcoords env (pos + ((1 : ℚ)/2) • rk4k1 env pos delta sign)))
    (h3 : g (pos_to_texcoords env (pos + ((1 : ℚ)/2) • rk4k2 env pos delta sign)) =
      env.field (pos_to_texcoords env (pos + ((1 : ℚ)/2) • rk4k2 env pos delta sign)))
    (h4 : g (pos_to_texcoords env (pos + rk4k3 env pos delta sign)) =
      env.field (pos_to_texcoords env (pos + rk4k3 env pos delta sign))) :
    rk4k1 env pos delta sign
        = (stepsPerCell env pos * delta * sign) • env.field (pos_to_texcoords env pos) ∧
    rk4k2 env pos delta sign
        = (stepsPerCell env pos * delta * sign) •
            env.field (pos_to_texcoords env (pos + ((1 : ℚ)/2) • rk4k1 env pos delta sign)) ∧
    rk4k3 env pos delta sign
        = (stepsPerCell env pos * delta * sign) •
            env.field (pos_to_texcoords env (pos + ((1 : ℚ)/2) • rk4k2 env pos delta sign)) ∧
    rk4k4 env pos delta sign
        = (stepsPerCell env pos * delta * sign) •
            env.field (pos_to_texcoords env (pos + rk4k3 env pos delta sign)) ∧
    advectRK4 env pos delta sign
        = pos + ((1 : ℚ)/6) •
            (rk4k1 env pos delta sign + (2 : ℚ) • rk4k2 env pos delta sign +
              (2 : ℚ) • rk4k3 env pos delta sign + rk4k4 env pos delta sign) ∧
    advectRK4 { env with field := g } pos delta sign = advectRK4 env pos delta sign := by
  have ptc : pos_to_texcoords { env with field := g } = pos_to_texcoords env := rfl
  have hsp : stepsPerCell { env with field := g } pos = stepsPerCell env pos := by
    simp only [stepsPerCell, ptc]
    rw [h1]
  have hk1 : rk4k1 { env with field := g } pos delta sign = rk4k1 env pos delta sign := by
    simp only [rk4k1, hsp, ptc]
    rw [h1]
  have hk2 : rk4k2 { env with field := g } pos delta sign = rk4k2 env pos delta sign := by
    simp only [rk4k2, hsp, ptc, hk1]
    rw [h2]
  have hk3 : rk4k3 { env with field := g } pos delta sign = rk4k3 env pos delta sign := by
    simp only [rk4k3, hsp, ptc, hk2]
    rw [h3]
  have hk4 : rk4k4 { env with field := g } pos delta sign = rk4k4 env pos delta sign := by
    simp only [rk4k4, hsp, ptc, hk3]
    rw [h4]
  refine ⟨rfl, rfl, rfl, rfl, rfl, ?_⟩
  simp only [advectRK4, hk1, hk2, hk3, hk4]

theorem rk45Body_error_eq (env : KernelEnv) (sign : ℚ) (pos : Vec2) (delta : ℚ) :
    (rk45Body env sign pos delta).error = rk45Error env sign pos delta := by
  by_cases h : rk45Error env sign pos delta > 1 <;> simp [rk45Body, h]

theorem rk45Body_decreased_iff (env : KernelEnv) (sign : ℚ) (pos : Vec2) (delta : ℚ) :
    (rk45Body env sign pos delta).decreased = true ↔
      (rk45Body env sign pos delta).error > 1 := by
  by_cases h : rk45Error env sign pos delta > 1 <;> simp [rk45Body, h]

/-- C3: in the adaptive RK4-5 advection, an error estimate above 1 shrinks
the time step by `max(0.1, 0.9 * error ^ -0.25)` and retries the same
sub-step from the same position with nothing committed; otherwise the
fifth-order estimate is committed and the next time step is grown by
`min(5.0, 0.9 * error ^ -0.2)`. -/
theorem c3_rk45_step_control (env : KernelEnv) (sign : ℚ) (pos : Vec2) (delta : ℚ)
    (fuel : ℕ) :
    ((rk45Body env sign pos delta).error > 1 →
      (rk45Body env sign pos delta).decreased = true ∧
      (rk45Body env sign pos delta).newDelta
        = delta * max max_shrink
            (safety * env.pw (rk45Body env sign pos delta).error shrink_exponent) ∧
      advectRK45 env sign pos delta (fuel+1)
        = advectRK45 env sign pos (rk45Body env sign pos delta).newDelta fuel) ∧
    ((rk45Body env sign pos delta).error ≤ 1 →
      (rk45Body env sign pos delta).decreased = false ∧
      (rk45Body env sign pos delta).newDelta
        = delta * min max_growth
            (safety * env.pw (rk45Body env sign pos delta).error grow_exponent) ∧
      advectRK45 env sign pos delta (fuel+1)
        = some ⟨rk45Fifth env sign pos delta, (rk45Body env sign pos delta).newDelta,
                ⟨delta, (rk45Body env sign pos delta).error⟩⟩) := by
  have herr := rk45Body_error_eq env sign pos delta
  constructor
  · intro hgt
    rw [herr] at hgt
    have hb : rk45Body env sign pos delta =
        { fifth := rk45Fifth env sign pos delta,
          newDelta := delta * max max_shrink
            (safety * env.pw (rk45Error env sign pos delta) shrink_exponent),
          error := rk45Error env sign pos delta, decreased := true } := by
      unfold rk45Body
      rw [if_pos hgt]
    refine ⟨?_, ?_, ?_⟩
    · rw [hb]
    · rw [hb]
    · show (let b := rk45Body env sign pos delta;
        if b.decreased = true then advectRK45 env sign pos b.newDelta fuel
        else some ⟨b.fifth, b.newDelta, ⟨delta, b.error⟩⟩)
          = advectRK45 env sign pos (rk45Body env sign pos delta).newDelta fuel
      rw [hb]
      rfl
  · intro hle
    rw [herr] at hle
    have hb : rk45Body env sign pos delta =
        { fifth := rk45Fifth env sign pos delta,
          newDelta := delta * min max_growth
            (safety * env.pw (rk45Error env sign pos delta) grow_exponent),
          error := rk45Error env sign pos delta, decreased := false } := by
      unfold rk45Body
      rw [if_neg (not_lt.mpr hle)]
    refine ⟨?_, ?_, ?_⟩
    · rw [hb]
    · rw [hb]
    · show (let b := rk45Body env sign pos delta;
        if b.decreased = true then advectRK45 env sign pos b.newDelta fuel
        else some ⟨b.fifth, b.newDelta, ⟨delta, b.error⟩⟩)
          = some ⟨rk45Fifth env sign pos delta, (rk45Body env sign pos delta).newDelta,
                  ⟨delta, (rk45Body env sign pos delta).error⟩⟩
      rw [hb]
      rfl

theorem rk45DeltaSeq_shift (env : KernelEnv) (sign : ℚ) (pos : Vec2) (delta : ℚ) :
    ∀ k : ℕ, rk45DeltaSeq env sign pos ((rk45Body env sign pos delta).newDelta) k
      = rk45DeltaSeq env sign pos delta (k+1) := by
  intro k
  induction k with
  | zero => rfl
  | succ k ih =>
    show (rk45Body env sign pos
        (rk45DeltaSeq env sign pos ((rk45Body env sign pos delta).newDelta) k)).newDelta
      = (rk45Body env sign pos (rk45DeltaSeq env sign pos delta (k+1))).newDelta
    rw [ih]

theorem rk45ErrAt_shift (env : KernelEnv) (sign : ℚ) (pos : Vec2) (delta : ℚ) (k : ℕ) :
    rk45ErrAt env sign pos ((rk45Body env sign pos delta).newDelta) k
      = rk45ErrAt env sign pos delta (k+1) := by
  unfold rk45ErrAt
  rw [rk45DeltaSeq_shift]

theorem rk45ErrAt_zero (env : KernelEnv) (sign : ℚ) (pos : Vec2) (delta : ℚ) :
    rk45ErrAt env sign pos delta 0 = (rk45Body env sign pos delta).error := rfl

/-- C9: the `advectRK45` rejection loop keeps retrying while the error
estimate exceeds 1 and has no retry bound: for every fuel, the call
completes within that fuel if and only if some iterate's error estimate
is at most 1. -/
theorem c9_rk45_no_retry_bound (env : KernelEnv) (sign : ℚ) (pos : Vec2) (delta : ℚ)
    (fuel : ℕ) :
    (advectRK45 env sign pos delta fuel).isSome = true ↔
      ∃ k, k < fuel ∧ rk45ErrAt env sign pos delta k ≤ 1 := by
  induction fuel generalizing delta with
  | zero => simp [advectRK45]
  | succ fuel ih =>
    show (let b := rk45Body env sign pos delta;
      if b.decreased = true then advectRK45 env sign pos b.newDelta fuel
      else some ⟨b.fifth, b.newDelta, ⟨delta, b.error⟩⟩).isSome = true ↔ _
    by_cases hd : (rk45Body env sign pos delta).decreased = true
    · rw [if_pos hd]
      rw [ih ((rk45Body env sign pos delta).newDelta)]
      have hgt : (rk45Body env sign pos delta).error > 1 :=
        (rk45Body_decreased_iff env sign pos delta).mp hd
      constructor
      · rintro ⟨k, hk, hke⟩
        rw [rk45ErrAt_shift] at hke
        exact ⟨k+1, by omega, hke⟩
      · rintro ⟨k, hk, hke⟩
        cases k with
        | zero =>
          rw [rk45ErrAt_zero] at hke
          exact absurd hgt (not_lt.mpr hke)
        | succ k =>
          refine ⟨k, by omega, ?_⟩
          rw [rk45ErrAt_shift]
          exact hke
    · rw [if_neg hd]
      have hle : (rk45Body env sign pos delta).error ≤ 1 := by
        by_contra hgt
        exact hd ((rk45Body_decreased_iff env sign pos delta).mpr (lt_of_not_le hgt))
      simp only [Option.isSome_some]
      constructor
      · intro _
        refine ⟨0, Nat.succ_pos _, ?_⟩
        rw [rk45ErrAt_zero]
        exact hle
      · intro _
        trivial

/-- C4 (amended): the per-component error estimate divides the absolute
difference between the fifth- and fourth-order estimates by the raw
absolute value of the local field component, with no epsilon floor; at a
position where an interpolated field component is zero, the corresponding
divisor is zero. -/
theorem c4_error_divisor (env : KernelEnv) (sign : ℚ) (pos : Vec2) (delta : ℚ) :
    rk45Scale env pos = vabs (env.field (pos_to_texcoords env pos)) ∧
    rk45Error env sign pos delta
      = max 0 (max ((rk45Diff env sign pos delta).x / (rk45Scale env pos).x)
                  ((rk45Diff env sign pos delta).y / (rk45Scale env pos).y))
          / env.maxError ∧
    ((env.field (pos_to_texcoords env pos)).x = 0 → (rk45Scale env pos).x = 0) := by
  refine ⟨rfl, rfl, fun h => ?_⟩
  show (vabs (env.field (pos_to_texcoords env pos))).x = 0
  unfold vabs
  rw [show (⟨|(env.field (pos_to_texcoords env pos)).x|,
    |(env.field (pos_to_texcoords env pos)).y|⟩ : Vec2).x
      = |(env.field (pos_to_texcoords env pos)).x| from rfl, h]
  exact abs_zero

theorem zeroXEnv_scale : rk45Scale zeroXEnv ⟨0, 0⟩ = ⟨0, 1⟩ := by
  norm_num [rk45Scale, zeroXEnv, vabs]

/-- C4 counterexample: with a field whose x-component is zero, the divisor
of the x error component is 0, and the error expression divides by 0 - 
there is no `max(|field|, eps)` guard. -/
theorem c4_counterexample :
    (rk45Scale zeroXEnv ⟨0, 0⟩).x = 0 ∧
    zeroXEnv.field (pos_to_texcoords zeroXEnv ⟨0, 0⟩) = ⟨0, 1⟩ ∧
    rk45Error zeroXEnv 1 ⟨0, 0⟩ 1
      = max 0 (max ((rk45Diff zeroXEnv 1 ⟨0, 0⟩ 1).x / 0)
                  ((rk45Diff zeroXEnv 1 ⟨0, 0⟩ 1).y / (rk45Scale zeroXEnv ⟨0, 0⟩).y))
          / zeroXEnv.maxError := by
  refine ⟨by rw [zeroXEnv_scale], rfl, ?_⟩
  show rk45Error zeroXEnv 1 ⟨0, 0⟩ 1
      = max 0 (max ((rk45Diff zeroXEnv 1 ⟨0, 0⟩ 1).x / 0)
                  ((rk45Diff zeroXEnv 1 ⟨0, 0⟩ 1).y / (rk45Scale zeroXEnv ⟨0, 0⟩).y))
          / zeroXEnv.maxError
  have h0 : ((0 : ℚ)) = (rk45Scale zeroXEnv ⟨0, 0⟩).x := by rw [zeroXEnv_scale]
  rw [h0]
  rfl

/-- C4 witness: the amended divisor statement evaluated at a concrete
position with a vanishing x field component. -/
theorem c4_error_divisor_witness :
    (zeroXEnv.field (pos_to_texcoords zeroXEnv ⟨0, 0⟩)).x = 0 ∧
    (rk45Scale zeroXEnv ⟨0, 0⟩).x = 0 :=
  ⟨rfl, (c4_error_divisor zeroXEnv 1 ⟨0, 0⟩ 1).2.2 rfl⟩

/-- C10: when the interpolated field at the current position has zero
magnitude, `steps_per_cell` is set to 0 instead of dividing by zero, all
four Runge-Kutta coefficients vanish, and the RK4 step leaves the
position unchanged. -/
theorem c10_zero_velocity_fixpoint (env : KernelEnv) (pos : Vec2) (delta sign : ℚ)
    (h : env.len (env.field (pos_to_texcoords env pos)) = 0) :
    stepsPerCell env pos = 0 ∧
    rk4k1 env pos delta sign = ⟨0, 0⟩ ∧ rk4k2 env pos delta sign = ⟨0, 0⟩ ∧
    rk4k3 env pos delta sign = ⟨0, 0⟩ ∧ rk4k4 env pos delta sign = ⟨0, 0⟩ ∧
    advectRK4 env pos delta sign = pos :=
  ⟨stepsPerCell_of_len_zero env pos h, rk4k1_of_len_zero env pos delta sign h,
    rk4k2_of_len_zero env pos delta sign h, rk4k3_of_len_zero env pos delta sign h,
    rk4k4_of_len_zero env pos delta sign h, advectRK4_of_len_zero env pos delta sign h⟩

/-- C10 witness: the zero field of `testEnv` leaves a concrete position
fixed. -/
theorem c10_zero_velocity_fixpoint_witness :
    testEnv.len (testEnv.field (pos_to_texcoords testEnv ⟨10, 5⟩)) = 0 ∧
    advectRK4 testEnv ⟨10, 5⟩ 1 1 = ⟨10, 5⟩ :=
  ⟨testEnv_len_field_zero _,
    (c10_zero_velocity_fixpoint testEnv ⟨10, 5⟩ 1 1 (testEnv_len_field_zero _)).2.2.2.2.2⟩

theorem c1_counterexample :
    compute_streamlines_particle testEnv 1 0 1 testParticle
        = some { pos := ⟨10, 5⟩, label := 7, dist := 2, termination := 2 } ∧
    testEnv.cellSize = ⟨3, 4⟩ ∧
    (5 : ℚ) * 5 = 3 * 3 + 4 * 4 ∧
    stagnationDist testEnv ⟨10, 5⟩ = 2 ∧
    (2 : ℚ) * 2 = (12 - 10) * (12 - 10) + (5 - 5) * (5 - 5) ∧
    (2 : ℚ) < (1/2) * 5 :=
  ⟨csp_testEnv, rfl, by norm_num, stagnationDist_testEnv, by norm_num, by norm_num⟩

theorem c1_termination_classification_witness :
    ({ pos := ⟨10, 5⟩, step := 1, label := 7, dist := 2, termination := 2 } : KState).termination
      = (if stagnationDist testEnv ⟨10, 5⟩ < stagnationThreshold testEnv then 3 else 2) := by
  have h := (c1_termination_classification.1 testEnv 1 0
      { pos := ⟨10, 5⟩, step := 1, label := 7, dist := 2, termination := 0 }
      { pos := ⟨10, 5⟩, step := 1, label := 7, dist := 2, termination := 2 } true
      kernelStepBody_testEnv).1 rfl
  exact h.2

/-- C2: the recorded distance-to-structure is non-increasing across the
steps of one integration, and the recorded label is overwritten only when
a newly computed distance is strictly smaller than the recorded one. -/
theorem c2_monotonic_label_distance :
    (∀ (env : KernelEnv) (pos : Vec2) (label : ℤ) (dist : ℚ),
        (updateLabelDistAll env pos label dist).2 ≤ dist ∧
        ((updateLabelDistAll env pos label dist).1 ≠ label →
          (updateLabelDistAll env pos label dist).2 < dist)) ∧
    (∀ (nl : ℤ) (nd : ℚ) (l : ℤ) (d : ℚ),
        update_label_and_dist nl nd l d ≠ (l, d) → nd < d) ∧
    (∀ (env : KernelEnv) (sign : ℚ) (fuel n : ℕ) (st st' : KState),
        kernelLoop env sign fuel n st = some st' → st'.dist ≤ st.dist) ∧
    (∀ (env : KernelEnv) (sign : ℚ) (fuel n : ℕ) (p p' : Particle),
        compute_streamlines_particle env sign fuel n p = some p' → p'.dist ≤ p.dist) := by
  refine ⟨fun env pos label dist => updateLabelDistAll_mono env pos label dist,
    fun nl nd l d hne => ?_, kernelLoop_dist_le, ?_⟩
  · unfold update_label_and_dist at hne
    split_ifs at hne with h
    · exact h
    · exact absurd rfl hne
  · intro env sign fuel n p p' h
    unfold compute_streamlines_particle at h
    split_ifs at h with hterm
    · cases hloop : kernelLoop env sign fuel n
        { pos := p.pos,
          step := env.timeScale * env.stepSizeTex (pos_to_texcoords env p.pos),
          label := (updateLabelDistAll env p.pos p.label p.dist).1,
          dist := (updateLabelDistAll env p.pos p.label p.dist).2,
          termination := 0 } with
      | none => rw [hloop] at h; cases h
      | some st =>
        rw [hloop] at h
        simp only [Option.map_some'] at h
        have hp' := (Option.some.inj h).symm
        rw [hp']
        exact le_trans (kernelLoop_dist_le env sign fuel n _ st hloop)
          (updateLabelDistAll_mono env p.pos p.label p.dist).1
    · obtain rfl : p = p' := Option.some.inj h
      exact le_refl _

/-- C2 witness: one concrete kernel-loop run keeps the recorded distance
non-increasing. -/
theorem c2_monotonic_label_distance_witness :
    kernelLoop testEnv 1 0 1
        { pos := ⟨10, 5⟩, step := 1, label := 7, dist := 2, termination := 0 }
        = some { pos := ⟨10, 5⟩, step := 1, label := 7, dist := 2, termination := 2 } ∧
    ({ pos := ⟨10, 5⟩, step := 1, label := 7, dist := 2, termination := 2 } : KState).dist ≤
      ({ pos := ⟨10, 5⟩, step := 1, label := 7, dist := 2, termination := 0 } : KState).dist :=
  ⟨kernelLoop_testEnv, c2_monotonic_label_distance.2.2.1 testEnv 1 0 1 _ _ kernelLoop_testEnv⟩

/-- C5 witness: a sampler that differs from the field far away but agrees
at the four evaluation points yields the same RK4 step. -/
theorem c5_rk4_structure_witness :
    advectRK4 { c5Env with field := g5 } ⟨0, 0⟩ 1 1 = advectRK4 c5Env ⟨0, 0⟩ 1 1 := by
  have h1 : g5 (pos_to_texcoords c5Env ⟨0, 0⟩)
      = c5Env.field (pos_to_texcoords c5Env ⟨0, 0⟩) := by
    rw [tex_c5Env]
    norm_num [g5, c5Env]
  have h2 : g5 (pos_to_texcoords c5Env (⟨0, 0⟩ + ((1 : ℚ)/2) • rk4k1 c5Env ⟨0, 0⟩ 1 1))
      = c5Env.field (pos_to_texcoords c5Env (⟨0, 0⟩ + ((1 : ℚ)/2) • rk4k1 c5Env ⟨0, 0⟩ 1 1)) := by
    rw [rk4k1_c5Env, tex_c5Env]
    norm_num [g5, c5Env, Vec2.add_def, Vec2.smul_def]
  have h3 : g5 (pos_to_texcoords c5Env (⟨0, 0⟩ + ((1 : ℚ)/2) • rk4k2 c5Env ⟨0, 0⟩ 1 1))
      = c5Env.field (pos_to_texcoords c5Env (⟨0, 0⟩ + ((1 : ℚ)/2) • rk4k2 c5Env ⟨0, 0⟩ 1 1)) := by
    rw [rk4k2_c5Env, tex_c5Env]
    norm_num [g5, c5Env, Vec2.add_def, Vec2.smul_def]
  have h4 : g5 (pos_to_texcoords c5Env (⟨0, 0⟩ + rk4k3 c5Env ⟨0, 0⟩ 1 1))
      = c5Env.field (pos_to_texcoords c5Env (⟨0, 0⟩ + rk4k3 c5Env ⟨0, 0⟩ 1 1)) := by
    rw [rk4k3_c5Env, tex_c5Env]
    norm_num [g5, c5Env, Vec2.add_def, Vec2.smul_def]
  exact (c5_rk4_structure c5Env g5 ⟨0, 0⟩ 1 1 h1 h2 h3 h4).2.2.2.2.2

/-- C3 witness: with the constant field of `constEnv` the error estimate is
0, so the fifth-order estimate is committed and the step grows by 0.9. -/
theorem c3_rk45_step_control_witness :
    rk45ErrAt constEnv 1 ⟨0, 0⟩ 1 0 ≤ 1 ∧
    advectRK45 constEnv 1 ⟨0, 0⟩ 1 1 = some ⟨⟨1, 0⟩, 9/10, ⟨1, 0⟩⟩ := by
  refine ⟨by rw [rk45ErrAt_constEnv]; norm_num, ?_⟩
  have h := ((c3_rk45_step_control constEnv 1 ⟨0, 0⟩ 1 0).2
    (by rw [rk45Body_error_eq, rk45Error_constEnv]; norm_num)).2.2
  rw [h, rk45Fifth_constEnv, rk45Body_constEnv]

/-- C9 witness: the loop completes at once when the first error estimate
is 0. -/
theorem c9_rk45_no_retry_bound_witness :
    (advectRK45 constEnv 1 ⟨0, 0⟩ 1 3).isSome = true :=
  (c9_rk45_no_retry_bound constEnv 1 ⟨0, 0⟩ 1 3).mpr
    ⟨0, by norm_num, by rw [rk45ErrAt_constEnv]; norm_num⟩

theorem mapParticles_append (f : Particle → Option Particle) (l1 l2 : List Particle) :
    mapParticles f (l1 ++ l2)
      = (mapParticles f l1).bind (fun a => (mapParticles f l2).map (fun b => a ++ b)) := by
  induction l1 with
  | nil =>
    cases h2 : mapParticles f l2 <;> simp [mapParticles, h2]
  | cons p t ih =>
    cases hfp : f p with
    | none => simp [mapParticles, hfp]
    | some q =>
      cases ht : mapParticles f t with
      | none => simp [mapParticles, hfp, ih, ht]
      | some a =>
        cases h2 : mapParticles f l2 with
        | none => simp [mapParticles, hfp, ih, ht, h2]
        | some b => simp [mapParticles, hfp, ih, ht, h2]

theorem update_labels_go_eq (f : Particle → Option Particle) (B : ℕ) (hB : 1 ≤ B) :
    ∀ (fuel : ℕ) (l : List Particle), l.length ≤ fuel →
      update_labels_go f B fuel l = mapParticles f l := by
  intro fuel
  induction fuel with
  | zero =>
    intro l hl
    have hnil : l = [] := List.eq_nil_of_length_eq_zero (Nat.le_zero.mp hl)
    subst hnil
    rfl
  | succ fuel ih =>
    intro l hl
    cases l with
    | nil => rfl
    | cons p t =>
      have hdrop : ((p :: t).drop B).length ≤ fuel := by
        rw [List.length_drop]
        simp only [List.length_cons] at hl ⊢
        omega
      show (mapParticles f ((p :: t).take B)).bind
          (fun a => (update_labels_go f B fuel ((p :: t).drop B)).map (fun b => a ++ b))
        = mapParticles f (p :: t)
      rw [ih _ hdrop, ← mapParticles_append, List.take_append_drop]

theorem update_labels_eq_mapParticles (f : Particle → Option Particle) (B : ℕ)
    (l : List Particle) (hB : 1 ≤ B) :
    update_labels f B l = mapParticles f l :=
  update_labels_go_eq f B hB l.length l (le_refl _)

/-- C6: the batch dispatcher produces identical per-particle results for
any two (positive) batch sizes: batching is purely a memory-footprint
control. -/
theorem c6_batch_invariance (env : KernelEnv) (sign : ℚ) (fuel n B1 B2 : ℕ)
    (l : List Particle) (h1 : 1 ≤ B1) (h2 : 1 ≤ B2) :
    update_labels (compute_streamlines_particle env sign fuel n) B1 l
      = update_labels (compute_streamlines_particle env sign fuel n) B2 l := by
  rw [update_labels_eq_mapParticles _ _ _ h1, update_labels_eq_mapParticles _ _ _ h2]

/-- C6 witness: batch sizes 1 and 3 on a concrete two-particle set. -/
theorem c6_batch_invariance_witness :
    update_labels (compute_streamlines_particle testEnv 1 0 1) 1 [testParticle, testParticle]
      = update_labels (compute_streamlines_particle testEnv 1 0 1) 3
          [testParticle, testParticle] :=
  c6_batch_invariance testEnv 1 0 1 1 3 [testParticle, testParticle]
    (by norm_num) (by norm_num)

theorem mapParticles_get? (f : Particle → Option Particle) :
    ∀ (l : List Particle) (l' : List Particle) (i : ℕ) (p q : Particle),
      mapParticles f l = some l' → l.get? i = some p → f p = some q →
      l'.get? i = some q := by
  intro l
  induction l with
  | nil => intro l' i p q hm hg hf; simp at hg
  | cons a t ih =>
    intro l' i p q hm hg hf
    cases hfa : f a with
    | none => rw [mapParticles, hfa] at hm; simp at hm
    | some qa =>
      cases ht : mapParticles f t with
      | none => rw [mapParticles, hfa, ht] at hm; simp at hm
      | some t' =>
        rw [mapParticles, hfa, ht] at hm
        simp only [Option.some_bind, Option.map_some'] at hm
        obtain rfl : qa :: t' = l' := Option.some.inj hm
        cases i with
        | zero =>
          simp only [List.get?] at hg ⊢
          obtain rfl : a = p := Option.some.inj hg
          rw [hfa] at hf
          obtain rfl : qa = q := Option.some.inj hf
          rfl
        | succ i =>
          simp only [List.get?] at hg ⊢
          exact ih t' i p q ht hg hf

/-- C7: a particle whose termination code is non-zero is skipped entirely
by the kernel, and its record is unchanged after the whole batch
dispatch. -/
theorem c7_skip_terminated (env : KernelEnv) (sign : ℚ) (fuel n B : ℕ)
    (l l' : List Particle) (i : ℕ) (p : Particle) (hB : 1 ≤ B)
    (hrun : update_labels (compute_streamlines_particle env sign fuel n) B l = some l')
    (hget : l.get? i = some p) (hterm : p.termination ≠ 0) :
    compute_streamlines_particle env sign fuel n p = some p ∧ l'.get? i = some p := by
  have hskip : compute_streamlines_particle env sign fuel n p = some p := by
    unfold compute_streamlines_particle
    rw [if_neg hterm]
  refine ⟨hskip, ?_⟩
  rw [update_labels_eq_mapParticles _ _ _ hB] at hrun
  exact mapParticles_get? _ l l' i p p hrun hget hskip

theorem csp_c7Particle :
    compute_streamlines_particle testEnv 1 0 1 c7Particle = some c7Particle := by
  unfold compute_streamlines_particle
  rw [if_neg (by decide : ¬ c7Particle.termination = 0)]

theorem update_labels_c7 :
    update_labels (compute_streamlines_particle testEnv 1 0 1) 1 [c7Particle]
      = some [c7Particle] := by
  simp [update_labels, update_labels_go, mapParticles, csp_c7Particle]

/-- C7 witness: a terminated particle passes through a one-batch dispatch
unchanged. -/
theorem c7_skip_terminated_witness :
    compute_streamlines_particle testEnv 1 0 1 c7Particle = some c7Particle ∧
    [c7Particle].get? 0 = some c7Particle :=
  c7_skip_terminated testEnv 1 0 1 1 [c7Particle] [c7Particle] 0 c7Particle
    (by norm_num) update_labels_c7 rfl (by decide)

theorem runDevOps_all_ok (env : ℕ → Bool) (hok : ∀ k, env k = true) :
    ∀ (ops : List DevOpSpec) (n : ℕ), runDevOps env ops n = Except.ok (n + ops.length) := by
  intro ops
  induction ops with
  | nil => intro n; simp [runDevOps]
  | cons op rest ih =>
    intro n
    unfold runDevOps
    rw [hok n]
    simp only [if_true]
    rw [ih (n+1)]
    congr 1
    simp [List.length_cons]
    omega

theorem runDevOps_first_fail (env : ℕ → Bool) :
    ∀ (ops : List DevOpSpec) (n k : ℕ) (hk : k < ops.length),
      (∀ j, j < k → env (n + j) = true) → env (n + k) = false →
      (ops.get ⟨k, hk⟩).checked = true →
      runDevOps env ops n = Except.error ((ops.get ⟨k, hk⟩).name, n + k + 1) := by
  intro ops
  induction ops with
  | nil => intro n k hk; simp at hk
  | cons op rest ih =>
    intro n k hk hpre hfail hch
    cases k with
    | zero =>
      unfold runDevOps
      rw [show env n = false from by simpa using hfail]
      simp only [Bool.false_eq_true, if_false]
      rw [if_pos (by simpa using hch)]
      simp
    | succ k =>
      have h0 : env n = true := by simpa using hpre 0 (Nat.succ_pos k)
      unfold runDevOps
      rw [h0]
      simp only [if_true]
      have hk' : k < rest.length := by simpa using hk
      have hpre' : ∀ j, j < k → env (n + 1 + j) = true := by
        intro j hj
        have := hpre (j+1) (by omega)
        rwa [show n + 1 + j = n + (j + 1) from by omega]
      have hfail' : env (n + 1 + k) = false := by
        rwa [show n + 1 + k = n + (k + 1) from by omega]
      have hch' : (rest.get ⟨k, hk'⟩).checked = true := by
        simpa using hch
      have := ih (n+1) k hk' hpre' hfail' hch'
      rw [this]
      have hname : (op :: rest).get ⟨k+1, hk⟩ = rest.get ⟨k, hk'⟩ := rfl
      rw [hname]
      have harith : n + 1 + k + 1 = n + (k + 1) + 1 := by omega
      rw [harith]

theorem mem_repeatOps {op : DevOpSpec} {ops : List DevOpSpec} :
    ∀ {n : ℕ}, op ∈ repeatOps n ops → op ∈ ops := by
  intro n
  induction n with
  | zero => intro h; simp [repeatOps] at h
  | succ n ih =>
    intro h
    rcases List.mem_append.mp h with h | h
    · exact h
    · exact ih h

theorem updateLabelsOps_checked (nB : ℕ) :
    ∀ op ∈ updateLabelsOps nB, op.checked = true := by
  intro op h
  unfold updateLabelsOps at h
  rcases List.mem_append.mp h with h | h
  · have hall : ∀ o ∈ allocOps, o.checked = true := by decide
    exact hall op h
  · have hall : ∀ o ∈ batchOps, o.checked = true := by decide
    exact hall op (mem_repeatOps h)

/-- C8 (amended): every failure of a checked device operation (all
allocations and transfers of `update_labels`, and the allocations and
transfers inside `initialize_texture`) aborts the run with an error naming
the first failing operation, having attempted each earlier operation
exactly once and nothing after it (no retry); when all operations succeed
no error is raised.  The constructor's `cudaMemcpyToSymbol` transfers are
unchecked and their failures raise nothing. -/
theorem c8_error_propagation (env : ℕ → Bool) (hasPoints hasLines : Bool) (nBatches : ℕ) :
    ((∀ k, env k = true) →
        runDevOps env (updateLabelsOps nBatches) 0
          = Except.ok (updateLabelsOps nBatches).length ∧
        runDevOps env (constructorOps hasPoints hasLines) 0
          = Except.ok (constructorOps hasPoints hasLines).length) ∧
    (∀ (k : ℕ) (hk : k < (updateLabelsOps nBatches).length),
        (∀ j, j < k → env j = true) → env k = false →
        runDevOps env (updateLabelsOps nBatches) 0
          = Except.error (((updateLabelsOps nBatches).get ⟨k, hk⟩).name, k + 1)) ∧
    (∀ (k : ℕ) (hk : k < (constructorOps hasPoints hasLines).length),
        (∀ j, j < k → env j = true) → env k = false →
        ((constructorOps hasPoints hasLines).get ⟨k, hk⟩).checked = true →
        runDevOps env (constructorOps hasPoints hasLines) 0
          = Except.error (((constructorOps hasPoints hasLines).get ⟨k, hk⟩).name, k + 1)) := by
  refine ⟨fun hok => ⟨?_, ?_⟩, fun k hk hpre hfail => ?_, fun k hk hpre hfail hch => ?_⟩
  · rw [runDevOps_all_ok env hok (updateLabelsOps nBatches) 0]
    rw [Nat.zero_add]
  · rw [runDevOps_all_ok env hok (constructorOps hasPoints hasLines) 0]
    rw [Nat.zero_add]
  · have := runDevOps_first_fail env (updateLabelsOps nBatches) 0 k hk
      (by intro j hj; rw [Nat.zero_add]; exact hpre j hj)
      (by rw [Nat.zero_add]; exact hfail)
      (updateLabelsOps_checked nBatches _ (List.get_mem _ _ _))
    rwa [Nat.zero_add] at this
  · have := runDevOps_first_fail env (constructorOps hasPoints hasLines) 0 k hk
      (by intro j hj; rw [Nat.zero_add]; exact hpre j hj)
      (by rw [Nat.zero_add]; exact hfail) hch
    rwa [Nat.zero_add] at this

/-- C8 counterexample: an oracle failing exactly at the first constructor
operation - the `cudaMemcpyToSymbol` upload of `const_data`, a
host-to-device transfer - still yields a successful run: the failure is
silently ignored, contradicting the claim that every transfer failure
propagates. -/
theorem c8_counterexample :
    runDevOps (fun n => n != 0) (constructorOps true true) 0 = Except.ok 19 ∧
    (constructorOps true true).get? 0 = some ⟨"cudaMemcpyToSymbol const_data", false⟩ ∧
    (fun n : ℕ => n != 0) 0 = false :=
  ⟨rfl, rfl, rfl⟩

/-- C8 witness: with an all-succeeding oracle both operation sequences
complete without error. -/
theorem c8_error_propagation_witness :
    runDevOps (fun _ => true) (updateLabelsOps 1) 0 = Except.ok 12 ∧
    runDevOps (fun _ => true) (constructorOps true true) 0 = Except.ok 19 := by
  have h := (c8_error_propagation (fun _ => true) true true 1).1 (fun _ => rfl)
  exact ⟨h.1.trans (by rfl), h.2.trans (by rfl)⟩
